import Mathlib

/-!
Shallow embedding of the aws-organization repository's provisioning
orchestration logic: account creation with its post-creation wait barrier
(`lib/account.py`), workload aggregation and descriptor publishing
(`lib/workload.py`), the central bootstrapper's preview-role policies
(`lib/central_infra_workload.py`), SSO permission-set assignment
(`lib/permissions/permissions.py`), and the relevant resource declarations
of `lib/program.py`.

Pulumi resources are embedded as plain records; a resource's `depends_on`
option becomes an explicit list of references (`Ref`) to other resources of
the model.  Pulumi `Output` values (deferred account ids) are embedded by
passing an explicit resolution environment `resolve : String → String`
mapping an account name to its eventually-assigned account id; every
`Output.apply` chain of the source is the corresponding pure function of
`resolve`.  Python `assert` statements and raised exceptions become
`Except String`.
-/

namespace AwsOrg

/-- Modelled from the spec: `aws_organization/lib/constants.py` is not in the
source tree (only its importers are).  It provides plain string constants for
the account e-mail convention and the central-infra repository name; the
concrete values are taken from the superseded copy of the logic in
`aws_organization/lib.py` and do not affect any claim. -/
def ACCOUNT_EMAIL_PREFIX : String := "ejfine"

/-- Modelled from the spec: e-mail domain constant from the missing
`constants.py` (value from the superseded `aws_organization/lib.py`). -/
def ACCOUNT_EMAIL_DOMAIN : String := "gmail.com"

/-- Modelled from the spec: central infra repository name constant from the
missing `constants.py`; its value is irrelevant to every claim. -/
def CENTRAL_INFRA_REPO_NAME : String := "aws-central-infrastructure"

/-- Constant from `lib/shared_lib.py`. -/
def ORG_MANAGED_SSM_PARAM_PREFIX : String := "/org-managed"

/-- Constant from `lib/shared_lib.py`. -/
def WORKLOAD_INFO_SSM_PARAM_PREFIX : String :=
  ORG_MANAGED_SSM_PARAM_PREFIX ++ "/logical-workloads"

/-- Constant from `lib/workload.py`. -/
def DEFAULT_ORG_ACCESS_ROLE_NAME : String := "OrganizationAccountAccessRole"

/-- A reference to another resource of the model, used for `depends_on`
edges.  `Ref.account n` is the `organizations.Account` resource of the
account named `n`; `Ref.wait n` is that account's
`wait_after_account_create` Sleep resource. -/
inductive Ref where
  | account (accountName : String)
  | wait (accountName : String)
  | command (name : String)
  | provider (name : String)
deriving DecidableEq, Repr

/-- The `Sleep` dynamic resource of `lib/account.py`: sleeps `seconds`
seconds when created. -/
structure Sleep where
  name : String
  seconds : Nat
  dependsOn : List Ref
deriving DecidableEq, Repr

/-- The inner `organizations.Account` resource declared by
`AwsAccount.__init__` (`lib/account.py:56-64`). -/
structure OrgAccount where
  accountName : String
  email : String
  parentOu : String
  /-- The dependency edges of the `ResourceOptions(depends_on=...)` passed to
  the Account resource; `depends_on=None` and `depends_on=[]` both denote no
  extra edges, so the effective edge list is stored. -/
  dependsOn : List Ref
deriving DecidableEq, Repr

/-- The `AwsAccount` component of `lib/account.py`: the account resource plus
its post-creation wait barrier. -/
structure AwsAccount where
  accountName : String
  account : OrgAccount
  wait : Sleep
deriving DecidableEq, Repr

/-- `AwsAccount.__init__` (`lib/account.py:44-73`).  Mirrors the source: when
`account_depends_on` is not `None` it is replaced by the empty list before
the Account resource is declared; the wait resource sleeps `60 * 3` seconds
and depends on the account resource. -/
def awsAccountNew (account_name : String) (ou : String)
    (account_depends_on : Option (List Ref)) : AwsAccount :=
  let account_depends_on :=
    if account_depends_on.isSome then some ([] : List Ref) else account_depends_on
  { accountName := account_name
  , account :=
      { accountName := account_name
      , email := ACCOUNT_EMAIL_PREFIX ++ "+" ++ account_name ++ "@" ++ ACCOUNT_EMAIL_DOMAIN
      , parentOu := ou
      , dependsOn := account_depends_on.getD [] }
  , wait :=
      { name := "wait-after-account-create-" ++ account_name
      , seconds := 60 * 3
      , dependsOn := [Ref.account account_name] } }

/-- `AwsAccountInfo` of `lib/shared_lib.py:10-13`. -/
structure AwsAccountInfo where
  version : String := "0.0.1"
  id : String
  name : String
deriving DecidableEq, Repr

/-- `AwsLogicalWorkload` of `lib/shared_lib.py:16-27`. -/
structure AwsLogicalWorkload where
  version : String := "0.0.1"
  name : String
  prod_accounts : List AwsAccountInfo := []
  staging_accounts : List AwsAccountInfo := []
  dev_accounts : List AwsAccountInfo := []
deriving DecidableEq, Repr

/-- A compact JSON array out of already-serialized elements. -/
def jsonArray (xs : List String) : String := "[" ++ String.intercalate "," xs ++ "]"

/-- Pydantic v2 `model_dump_json` of `AwsAccountInfo`: compact separators,
fields in declaration order (`version`, `id`, `name`).  The embedding assumes
the field values need no JSON string escaping, which holds for every value
considered here. -/
def AwsAccountInfo.modelDumpJson (a : AwsAccountInfo) : String :=
  "\x7b\"version\":\"" ++ a.version ++ "\",\"id\":\"" ++ a.id ++
    "\",\"name\":\"" ++ a.name ++ "\"\x7d"

/-- Pydantic v2 `model_dump_json` of `AwsLogicalWorkload`: compact
separators, fields in declaration order. -/
def AwsLogicalWorkload.modelDumpJson (w : AwsLogicalWorkload) : String :=
  "\x7b\"version\":\"" ++ w.version ++ "\",\"name\":\"" ++ w.name ++
    "\",\"prod_accounts\":" ++ jsonArray (w.prod_accounts.map AwsAccountInfo.modelDumpJson) ++
    ",\"staging_accounts\":" ++ jsonArray (w.staging_accounts.map AwsAccountInfo.modelDumpJson) ++
    ",\"dev_accounts\":" ++ jsonArray (w.dev_accounts.map AwsAccountInfo.modelDumpJson) ++ "\x7d"

/-- One statement of an IAM policy document
(`GetPolicyDocumentStatementArgs`). -/
structure PolicyStatement where
  sid : Option String := none
  effect : String
  actions : List String
  resources : List String
deriving DecidableEq, Repr

/-- An inline role policy (`iam.RolePolicyArgs`): a name plus the statements
of its policy document. -/
structure RolePolicy where
  policy_name : String
  statements : List PolicyStatement
deriving DecidableEq, Repr

/-- `create_pulumi_kms_role_policy_args` (`lib/workload.py:29-44`). -/
def create_pulumi_kms_role_policy_args (kms_key_arn : String) : RolePolicy :=
  { policy_name := "InfraKmsDecrypt"
  , statements :=
      [ { sid := none
        , effect := "Allow"
        , actions := ["kms:Decrypt", "kms:Encrypt"]
        , resources := [kms_key_arn] } ] }

/-- An `iam.Role` resource. -/
structure IamRole where
  resourceName : String
  roleName : String
  assumeRolePolicyDocument : String
  managedPolicyArns : List String
  policies : List RolePolicy := []
  providerName : String
deriving DecidableEq, Repr

/-- A `pulumi_aws_native.Provider` that assumes a role in a member account. -/
structure AccountProvider where
  name : String
  assumeRoleArn : String
  dependsOn : List Ref
deriving DecidableEq, Repr

/-- The resources created by `AwsWorkload._create_central_infra_roles` for
one account (`lib/workload.py:158-185`). -/
structure CentralInfraRoles where
  accountProvider : AccountProvider
  deployRole : IamRole
  previewRole : IamRole
deriving DecidableEq, Repr

/-- `AwsWorkload._create_central_infra_roles` (`lib/workload.py:158-185`).
`resolve` resolves the `account.id` Output used in the provider role ARN. -/
def create_central_infra_roles (deploy_policy_json preview_policy_json kms_key_arn : String)
    (resolve : String → String) (account_resource : AwsAccount) (account_name : String) :
    CentralInfraRoles :=
  { accountProvider :=
      { name := account_name
      , assumeRoleArn := "arn:aws:iam::" ++ resolve account_resource.accountName ++ ":role/"
          ++ DEFAULT_ORG_ACCESS_ROLE_NAME
      , dependsOn := [Ref.wait account_resource.accountName] }
  , deployRole :=
      { resourceName := "central-infra-repo-deploy-in-" ++ account_name
      , roleName := "InfraDeploy--" ++ CENTRAL_INFRA_REPO_NAME
      , assumeRolePolicyDocument := deploy_policy_json
      , managedPolicyArns := ["arn:aws:iam::aws:policy/AdministratorAccess"]
      , policies := []
      , providerName := account_name }
  , previewRole :=
      { resourceName := "central-infra-repo-preview-in-" ++ account_name
      , roleName := "InfraPreview--" ++ CENTRAL_INFRA_REPO_NAME
      , assumeRolePolicyDocument := preview_policy_json
      , managedPolicyArns := ["arn:aws:iam::aws:policy/ReadOnlyAccess"]
      , policies := [create_pulumi_kms_role_policy_args kms_key_arn]
      , providerName := account_name } }

/-- An `ssm.Parameter` resource. -/
structure SsmParameter where
  resourceName : String
  paramName : String
  value : String
  dependsOn : List Ref
deriving DecidableEq, Repr

/-- The per-tier account-creation loop body of `AwsWorkload.__init__`
(`lib/workload.py:73-92`): skip a tier whose suffix list is `None`, assert a
single suffix, assert the tier's OU is present, and create one `AwsAccount`
per suffix named `f"{workload_name}-{suffix}"`. -/
def createTierAccounts (workload_name : String) (suffixes : Option (List String))
    (ou : Option String) : Except String (List AwsAccount) :=
  match suffixes with
  | none => Except.ok []
  | some sfxs =>
    if sfxs.length = 1 then
      match ou with
      | none => Except.error "AssertionError: assert ou is not None"
      | some ouName =>
        Except.ok (sfxs.map fun account_name_suffix =>
          awsAccountNew (workload_name ++ "-" ++ account_name_suffix) ouName none)
    else
      Except.error
        "AssertionError: Only a single account name suffix in each environment tier is well tested/supported currently"

/-- `build_workload` (`lib/workload.py:122-139`): turn the resolved
`(id, name)` pairs of each tier into `AwsAccountInfo` models and assemble the
`AwsLogicalWorkload`.  The source returns `logical_workload.model_dump_json()`;
the embedding returns the logical workload value, whose serialization is
`AwsLogicalWorkload.modelDumpJson`. -/
def build_workload (workload_name : String)
    (resolved_prod_accounts resolved_staging_accounts resolved_dev_accounts :
      List (String × String)) : AwsLogicalWorkload :=
  { name := workload_name
  , prod_accounts := resolved_prod_accounts.map fun acc => { id := acc.1, name := acc.2 }
  , staging_accounts := resolved_staging_accounts.map fun acc => { id := acc.1, name := acc.2 }
  , dev_accounts := resolved_dev_accounts.map fun acc => { id := acc.1, name := acc.2 } }

/-- The component tree built by `AwsWorkload.__init__`
(`lib/workload.py:47-156`): per-tier accounts, the per-account central-infra
roles, the logical-workload descriptor built by `build_workload`, and the SSM
parameter publishing its serialization. -/
structure AwsWorkload where
  workloadName : String
  prodAccounts : List AwsAccount
  stagingAccounts : List AwsAccount
  devAccounts : List AwsAccount
  infraRoles : List CentralInfraRoles
  descriptor : AwsLogicalWorkload
  workloadParam : SsmParameter

/-- `AwsWorkload.all_accounts` (`lib/workload.py:187-189`). -/
def AwsWorkload.allAccounts (w : AwsWorkload) : List AwsAccount :=
  w.prodAccounts ++ w.stagingAccounts ++ w.devAccounts

/-- `AwsWorkload.__init__` (`lib/workload.py:48-156`).  Tiers are processed
in source order (prod, staging, dev); the first failing assertion aborts.
`resolve` is the resolution environment for the account-id Outputs; the
published parameter's `depends_on` lists the `wait_after_account_create`
resource of every account of the workload. -/
def awsWorkloadNew (workload_name : String)
    (prod_ou staging_ou dev_ou : Option String)
    (prod_account_name_suffixes staging_account_name_suffixes dev_account_name_suffixes :
      Option (List String))
    (kms_key_arn deploy_policy_json preview_policy_json : String)
    (resolve : String → String) : Except String AwsWorkload :=
  match createTierAccounts workload_name prod_account_name_suffixes prod_ou with
  | Except.error e => Except.error e
  | Except.ok prodAccounts =>
  match createTierAccounts workload_name staging_account_name_suffixes staging_ou with
  | Except.error e => Except.error e
  | Except.ok stagingAccounts =>
  match createTierAccounts workload_name dev_account_name_suffixes dev_ou with
  | Except.error e => Except.error e
  | Except.ok devAccounts =>
    let allAccounts := prodAccounts ++ stagingAccounts ++ devAccounts
    let infraRoles := allAccounts.map fun a =>
      create_central_infra_roles deploy_policy_json preview_policy_json kms_key_arn
        resolve a a.accountName
    let prod_account_data := prodAccounts.map fun a => (resolve a.accountName, a.accountName)
    let staging_account_data := stagingAccounts.map fun a => (resolve a.accountName, a.accountName)
    let dev_account_data := devAccounts.map fun a => (resolve a.accountName, a.accountName)
    let descriptor :=
      build_workload workload_name prod_account_data staging_account_data dev_account_data
    Except.ok
      { workloadName := workload_name
      , prodAccounts := prodAccounts
      , stagingAccounts := stagingAccounts
      , devAccounts := devAccounts
      , infraRoles := infraRoles
      , descriptor := descriptor
      , workloadParam :=
          { resourceName := workload_name ++ "-workload-info-for-central-infra"
          , paramName := WORKLOAD_INFO_SSM_PARAM_PREFIX ++ "/" ++ workload_name
          , value := descriptor.modelDumpJson
          , dependsOn := allAccounts.map fun a => Ref.wait a.accountName } }

/-- The "StateBucketWrite" inline policy of the central bootstrapper's
preview role (`lib/central_infra_workload.py:212-239`), as a function of the
resolved state-bucket name. -/
def state_bucket_write_policy (bucket_name : String) : RolePolicy :=
  { policy_name := "StateBucketWrite"
  , statements :=
      [ { sid := some "CreateMetadataAndLocks"
        , effect := "Allow"
        , actions := ["s3:PutObject"]
        , resources := ["arn:aws:s3:::" ++ bucket_name ++ "/$\x7baws:PrincipalAccount\x7d/*"] }
      , { sid := some "RemoveLock"
        , effect := "Allow"
        , actions := ["s3:DeleteObject", "s3:DeleteObjectVersion"]
        , resources :=
            ["arn:aws:s3:::" ++ bucket_name
              ++ "/$\x7baws:PrincipalAccount\x7d/*/.pulumi/locks/*.json"] } ] }

/-- The `central_infra_preview_role` declaration
(`lib/central_infra_workload.py:205-243`), as a function of the resolved
assume-role policy JSON, the configured KMS key ARN and the resolved state
bucket name. -/
def central_infra_preview_role (preview_assume_role_policy_json kms_key_arn bucket_name : String) :
    IamRole :=
  { resourceName := "central-infra-repo-preview"
  , roleName := "InfraPreview--" ++ CENTRAL_INFRA_REPO_NAME
  , assumeRolePolicyDocument := preview_assume_role_policy_json
  , managedPolicyArns := ["arn:aws:iam::aws:policy/ReadOnlyAccess"]
  , policies :=
      [ create_pulumi_kms_role_policy_args kms_key_arn
      , state_bucket_write_policy bucket_name ]
  , providerName := "central-infra-prod" }

/-- A `pulumi_command.local.Command` resource. -/
structure Command where
  name : String
  create : String
  dependsOn : List Ref
deriving DecidableEq, Repr

/-- A `pulumi_aws.organizations.DelegatedAdministrator` resource. -/
structure DelegatedAdministrator where
  name : String
  accountId : String
  servicePrincipal : String
  dependsOn : List Ref
deriving DecidableEq, Repr

/-- The central-infra account declared by `create_central_infra_workload`
(`lib/central_infra_workload.py:30-33`); its OU is
`org_units.central_infra_prod` (resource name "CentralInfraProd"). -/
def central_infra_account : AwsAccount :=
  awsAccountNew "central-infra-prod" "CentralInfraProd" none

/-- The `enable-aws-service-access` Command
(`lib/central_infra_workload.py:35-41`): depends on the central-infra
account's post-creation wait. -/
def enable_service_access : Command :=
  { name := "enable-aws-service-access"
  , create := "aws organizations enable-aws-service-access --service-principal account.amazonaws.com"
  , dependsOn := [Ref.wait central_infra_account.accountName] }

/-- The `central_infra_provider` declaration
(`lib/central_infra_workload.py:42-52`): assumes the org access role in the
central-infra account and depends on that account's post-creation wait. -/
def central_infra_provider (resolve : String → String) : AccountProvider :=
  { name := "central-infra-prod"
  , assumeRoleArn := "arn:aws:iam::" ++ resolve central_infra_account.accountName ++ ":role/"
      ++ DEFAULT_ORG_ACCESS_ROLE_NAME
  , dependsOn := [Ref.wait central_infra_account.accountName] }

/-- The `billing_delegate_workload` declaration of `pulumi_program`
(`lib/program.py:74-79`): workload "billing-delegate" with
`prod_ou=org_units.central_infra_prod` and
`prod_account_name_suffixes=["prod"]` only. -/
def billing_delegate_workload (kms_key_arn deploy_policy_json preview_policy_json : String)
    (resolve : String → String) : Except String AwsWorkload :=
  awsWorkloadNew "billing-delegate" (some "CentralInfraProd") none none
    (some ["prod"]) none none kms_key_arn deploy_policy_json preview_policy_json resolve

/-- The `identity_center_delegate_workload` declaration of `pulumi_program`
(`lib/program.py:54-59`). -/
def identity_center_delegate_workload (kms_key_arn deploy_policy_json preview_policy_json : String)
    (resolve : String → String) : Except String AwsWorkload :=
  awsWorkloadNew "identity-center" (some "CentralInfraProd") none none
    (some ["prod"]) none none kms_key_arn deploy_policy_json preview_policy_json resolve

/-- The two `DelegatedAdministrator` declarations of `pulumi_program`
(`lib/program.py:60-98`), with their `depends_on` edges: each depends on the
delegated account's `wait_after_account_create` resource and an
enable-service-access Command, never on the account resource itself. -/
def pulumi_program_delegated_admins (kms_key_arn deploy_policy_json preview_policy_json : String)
    (resolve : String → String) : Except String (List DelegatedAdministrator) :=
  match identity_center_delegate_workload kms_key_arn deploy_policy_json preview_policy_json resolve with
  | Except.error e => Except.error e
  | Except.ok icw =>
  match icw.prodAccounts with
  | [] => Except.error "IndexError: list index out of range"
  | icProd0 :: _ =>
  match billing_delegate_workload kms_key_arn deploy_policy_json preview_policy_json resolve with
  | Except.error e => Except.error e
  | Except.ok bdw =>
  match bdw.prodAccounts with
  | [] => Except.error "IndexError: list index out of range"
  | bdProd0 :: _ =>
    let enable_billing_service_access : Command :=
      { name := "enable-aws-service-access-for-billing"
      , create := "aws organizations enable-aws-service-access --service-principal cost-optimization-hub.bcm.amazonaws.com"
      , dependsOn := [Ref.wait bdProd0.accountName] }
    Except.ok
      [ { name := "delegate-admin-to-identity-center-prod"
        , accountId := resolve icProd0.accountName
        , servicePrincipal := "sso.amazonaws.com"
        , dependsOn := [Ref.wait icProd0.accountName, Ref.command enable_service_access.name] }
      , { name := "delegate-billing-admin"
        , accountId := resolve bdProd0.accountName
        , servicePrincipal := "cost-optimization-hub.bcm.amazonaws.com"
        , dependsOn :=
            [Ref.wait bdProd0.accountName, Ref.command enable_billing_service_access.name] } ]

/-- `UserAttributes` of `lib/permissions/lib.py:37-39`. -/
structure UserAttributes where
  exclude_from_manual_artifacts : Bool := false
  exclude_from_cloud_courier : Bool := false
deriving DecidableEq, Repr

/-- `UserInfo` of `lib/permissions/lib.py:42-44`; pydantic model equality is
field-wise equality. -/
structure UserInfo where
  username : String
  attributes : UserAttributes := {}
deriving DecidableEq, Repr

/-- Lookup of a username in the insertion-ordered association of already-seen
users; embeds `user_info.username not in unique_user_infos` /
`unique_user_infos[user_info.username]`
(`lib/permissions/permissions.py:172-175`). -/
def findUserInfo (seen : List UserInfo) (uname : String) : Option UserInfo :=
  seen.find? fun u => u.username == uname

/-- The loop of `_create_unique_userinfo_list`
(`lib/permissions/permissions.py:170-179`).  The insertion-ordered dict
`unique_user_infos` is embedded as `seen`, the list of stored values in
insertion order; a repeated username equal to the stored entry is skipped, an
unequal one raises `ValueError`. -/
def uniqueUserinfoLoop (seen : List UserInfo) : List UserInfo → Except String (List UserInfo)
  | [] => Except.ok seen
  | user_info :: rest =>
    match findUserInfo seen user_info.username with
    | none => uniqueUserinfoLoop (seen ++ [user_info]) rest
    | some info_in_dict =>
      if user_info = info_in_dict then
        uniqueUserinfoLoop seen rest
      else
        Except.error "ValueError: Duplicate user info"

/-- `_create_unique_userinfo_list` (`lib/permissions/permissions.py:169-179`). -/
def _create_unique_userinfo_list (users : List UserInfo) : Except String (List UserInfo) :=
  uniqueUserinfoLoop [] users

/-- The first entry of each username, in order of first appearance: the
reference description of what `_create_unique_userinfo_list` returns when it
does not raise. -/
def firstOccurrences : List UserInfo → List UserInfo
  | [] => []
  | u :: rest => u :: firstOccurrences (rest.filter fun v => v.username != u.username)
termination_by l => l.length
decreasing_by
  simp only [List.length_cons]
  exact Nat.lt_succ_of_le (List.length_filter_le _ _)

/-- No two entries of the list carry the same username with unequal
`UserInfo` values: the condition under which `_create_unique_userinfo_list`
does not raise. -/
def usersConsistent (users : List UserInfo) : Prop :=
  ∀ u ∈ users, ∀ v ∈ users, u.username = v.username → u = v

instance (users : List UserInfo) : Decidable (usersConsistent users) := by
  unfold usersConsistent
  infer_instance

/-- One `ssoadmin.AccountAssignment` resource created by
`AwsSsoPermissionSetAccountAssignments`
(`lib/permissions/permissions.py:200-210`). -/
structure AccountAssignment where
  resourceName : String
  permissionSetName : String
  username : String
  principalId : String
  accountId : String
deriving DecidableEq, Repr

/-- `AwsSsoPermissionSetAccountAssignments.__init__`
(`lib/permissions/permissions.py:182-210`): default the user list, dedup it
with `_create_unique_userinfo_list`, then create one account-assignment
binding per remaining user.  `lookup_user_id` resolves a username to an SSO
user id through the external identity store and is passed in as a function. -/
def awsSsoPermissionSetAccountAssignments (account_info : AwsAccountInfo)
    (permission_set_name : String) (users : Option (List UserInfo))
    (lookup_user_id : String → String) : Except String (List AccountAssignment) :=
  let users := users.getD []
  let resource_name := permission_set_name ++ "-" ++ account_info.name
  match _create_unique_userinfo_list users with
  | Except.error e => Except.error e
  | Except.ok user_infos =>
    Except.ok (user_infos.map fun user_info =>
      { resourceName := resource_name ++ "-" ++ user_info.username
      , permissionSetName := permission_set_name
      , username := user_info.username
      , principalId := lookup_user_id user_info.username
      , accountId := account_info.id })

/-- `AwsSsoPermissionSetContainer` of `lib/permissions/permissions.py:82-106`,
reduced to the data identifying the permission set. -/
structure AwsSsoPermissionSetContainer where
  name : String
  description : String
  managed_policies : List String := []
deriving DecidableEq, Repr

/-- `LOW_RISK_ADMIN_PERM_SET_CONTAINER` (`lib/permissions/permissions.py:142-146`). -/
def LOW_RISK_ADMIN_PERM_SET_CONTAINER : AwsSsoPermissionSetContainer :=
  { name := "LowRiskAccountAdminAccess"
  , description := "Low Risk Account Admin Access"
  , managed_policies := ["AdministratorAccess"] }

/-- `VIEW_ONLY_PERM_SET_CONTAINER` (`lib/permissions/permissions.py:148-166`). -/
def VIEW_ONLY_PERM_SET_CONTAINER : AwsSsoPermissionSetContainer :=
  { name := "ViewOnlyAccess"
  , description := "The ability to view logs and other resource details in protected environments for troubleshooting."
  , managed_policies :=
      [ "AWSSupportAccess"
      , "job-function/ViewOnlyAccess"
      , "CloudWatchReadOnlyAccess"
      , "AmazonSSMReadOnlyAccess"
      , "AWSLambda_ReadOnlyAccess"
      , "AmazonEventBridgeReadOnlyAccess"
      , "AmazonEC2ContainerRegistryReadOnly"
      , "AWSBillingReadOnlyAccess"
      , "CostOptimizationHubReadOnlyAccess" ] }

/-- One `AwsSsoPermissionSetAccountAssignments` component instantiated by
`DefaultWorkloadPermissionAssignments`: which account, which permission set,
which users. -/
structure WorkloadAssignment where
  account_info : AwsAccountInfo
  permission_set_name : String
  users : Option (List UserInfo)
deriving DecidableEq, Repr

/-- `DefaultWorkloadPermissionAssignments.model_post_init`
(`lib/permissions/permissions.py:213-230`): every account of the prod and
staging lists is assigned the view-only permission set, every account of the
dev list the low-risk admin permission set, each with the given users. -/
def defaultWorkloadPermissionAssignments (workload_info : AwsLogicalWorkload)
    (users : Option (List UserInfo)) : List WorkloadAssignment :=
  ((workload_info.prod_accounts ++ workload_info.staging_accounts).map
      fun protected_env_account =>
        { account_info := protected_env_account
        , permission_set_name := VIEW_ONLY_PERM_SET_CONTAINER.name
        , users := users })
    ++ (workload_info.dev_accounts.map fun unprotected_env_account =>
        { account_info := unprotected_env_account
        , permission_set_name := LOW_RISK_ADMIN_PERM_SET_CONTAINER.name
        , users := users })

/-- A concrete resolution environment assigning every account the same
12-digit id, used to evaluate the model on closed inputs. -/
def exampleResolve : String → String := fun _ => "123456789012"

/-- The concrete workload produced by the `billing_delegate_workload`
declaration under `exampleResolve` (the declaration succeeds, so the fallback
branch is never taken). -/
def exampleBillingWorkload : AwsWorkload :=
  match billing_delegate_workload "kms-arn" "deploy-doc" "preview-doc" exampleResolve with
  | Except.ok w => w
  | Except.error _ =>
    { workloadName := ""
    , prodAccounts := []
    , stagingAccounts := []
    , devAccounts := []
    , infraRoles := []
    , descriptor := { name := "" }
    , workloadParam := { resourceName := "", paramName := "", value := "", dependsOn := [] } }

/-- C9: whenever a non-None `account_depends_on` sequence is supplied to
`AwsAccount.__init__`, it is replaced by the empty list before the Account
resource is declared, so the created Account carries no caller-supplied
dependency edges and is identical to the one created when the caller passes
`None`. -/
theorem c9_account_depends_on_discarded :
    ∀ (account_name ou : String) (deps : List Ref),
      (awsAccountNew account_name ou (some deps)).account.dependsOn = [] ∧
      awsAccountNew account_name ou (some deps) = awsAccountNew account_name ou none := by
  intro account_name ou deps
  exact ⟨rfl, rfl⟩

/-- C4: in the central bootstrapper's preview role, every policy statement
granting `s3:DeleteObject` or `s3:DeleteObjectVersion` restricts its
resources to the lock-file path pattern under the state bucket, and the KMS
inline policy is exactly the `InfraKmsDecrypt` policy granting exactly
`kms:Decrypt` and `kms:Encrypt` on exactly the configured key ARN. -/
theorem c4_preview_role_policy_scope :
    (∀ (preview_json kms_key_arn bucket_name : String) (p : RolePolicy)
        (st : PolicyStatement),
        p ∈ (central_infra_preview_role preview_json kms_key_arn bucket_name).policies →
        st ∈ p.statements →
        ("s3:DeleteObject" ∈ st.actions ∨ "s3:DeleteObjectVersion" ∈ st.actions) →
        st.resources =
          ["arn:aws:s3:::" ++ bucket_name ++ "/$\x7baws:PrincipalAccount\x7d/*/.pulumi/locks/*.json"]) ∧
    (∀ (preview_json kms_key_arn bucket_name : String),
        ((central_infra_preview_role preview_json kms_key_arn bucket_name).policies.filter
            fun p => p.policy_name == "InfraKmsDecrypt") =
          [{ policy_name := "InfraKmsDecrypt"
           , statements :=
               [{ sid := none
                , effect := "Allow"
                , actions := ["kms:Decrypt", "kms:Encrypt"]
                , resources := [kms_key_arn] }] }]) := by
  constructor
  · intro preview_json kms_key_arn bucket_name p st hp hst hdel
    simp only [central_infra_preview_role, create_pulumi_kms_role_policy_args,
      state_bucket_write_policy, List.mem_cons, List.not_mem_nil, or_false] at hp
    rcases hp with hp | hp <;> subst hp <;>
      simp only [List.mem_cons, List.not_mem_nil, or_false] at hst
    · subst hst
      rcases hdel with h | h <;> simp at h
    · rcases hst with hst | hst <;> subst hst
      · rcases hdel with h | h <;> simp at h
      · rfl
  · intro preview_json kms_key_arn bucket_name
    rfl

/-- C5: every account carries a wait barrier of fixed duration 180 seconds
(within the 60-180 second range) depending on the account resource, and every
dependent operation — the per-account assume-role provider (through which the
roles are created) and the delegated-administrator registrations of
`pulumi_program` — depends on that wait resource rather than on the account
resource directly. -/
theorem c5_wait_barrier_ordering :
    (∀ (account_name ou : String) (deps : Option (List Ref)),
        60 ≤ (awsAccountNew account_name ou deps).wait.seconds ∧
        (awsAccountNew account_name ou deps).wait.seconds ≤ 180 ∧
        (awsAccountNew account_name ou deps).wait.dependsOn = [Ref.account account_name]) ∧
    (∀ (deploy_json preview_json kms : String) (resolve : String → String)
        (a : AwsAccount) (n : String),
        (create_central_infra_roles deploy_json preview_json kms resolve a n).accountProvider.dependsOn =
          [Ref.wait a.accountName] ∧
        ∀ m, Ref.account m ∉
          (create_central_infra_roles deploy_json preview_json kms resolve a n).accountProvider.dependsOn) ∧
    (∀ (kms deploy_json preview_json : String) (resolve : String → String),
        ∃ admins,
          pulumi_program_delegated_admins kms deploy_json preview_json resolve =
            Except.ok admins ∧
          admins.length = 2 ∧
          ∀ da ∈ admins,
            (∃ acct, Ref.wait acct ∈ da.dependsOn ∧ da.accountId = resolve acct) ∧
            ∀ m, Ref.account m ∉ da.dependsOn) := by
  refine ⟨?_, ?_, ?_⟩
  · intro account_name ou deps
    refine ⟨by norm_num [awsAccountNew], by norm_num [awsAccountNew], rfl⟩
  · intro deploy_json preview_json kms resolve a n
    refine ⟨rfl, ?_⟩
    intro m hm
    simp [create_central_infra_roles] at hm
  · intro kms deploy_json preview_json resolve
    refine ⟨_, rfl, rfl, ?_⟩
    intro da hda
    simp only [List.mem_cons, List.not_mem_nil, or_false] at hda
    rcases hda with hda | hda
    · subst hda
      exact ⟨⟨"identity-center-prod", by simp [awsAccountNew], rfl⟩, by intro m hm; simp [awsAccountNew] at hm⟩
    · subst hda
      exact ⟨⟨"billing-delegate-prod", by simp [awsAccountNew], rfl⟩, by intro m hm; simp [awsAccountNew] at hm⟩

/-- C8: the default workload permission assignments give every account of the
prod and staging lists the view-only permission set and every account of the
dev list the low-risk admin permission set, independently of the users
argument; an assignment of the admin set only ever targets a dev-list
account, and an account of the protected lists that is not also in the dev
list receives nothing but the view-only set. -/
theorem c8_default_tier_permission_policy :
    (∀ (wl : AwsLogicalWorkload) (users : Option (List UserInfo)) (a : AwsAccountInfo),
        a ∈ wl.prod_accounts ++ wl.staging_accounts →
        (⟨a, VIEW_ONLY_PERM_SET_CONTAINER.name, users⟩ : WorkloadAssignment) ∈
          defaultWorkloadPermissionAssignments wl users) ∧
    (∀ (wl : AwsLogicalWorkload) (users : Option (List UserInfo)) (a : AwsAccountInfo),
        a ∈ wl.dev_accounts →
        (⟨a, LOW_RISK_ADMIN_PERM_SET_CONTAINER.name, users⟩ : WorkloadAssignment) ∈
          defaultWorkloadPermissionAssignments wl users) ∧
    (∀ (wl : AwsLogicalWorkload) (users : Option (List UserInfo)) (asn : WorkloadAssignment),
        asn ∈ defaultWorkloadPermissionAssignments wl users →
        asn.permission_set_name = LOW_RISK_ADMIN_PERM_SET_CONTAINER.name →
        asn.account_info ∈ wl.dev_accounts) ∧
    (∀ (wl : AwsLogicalWorkload) (users : Option (List UserInfo)) (asn : WorkloadAssignment),
        asn ∈ defaultWorkloadPermissionAssignments wl users →
        asn.account_info ∈ wl.prod_accounts ++ wl.staging_accounts →
        asn.account_info ∉ wl.dev_accounts →
        asn.permission_set_name = VIEW_ONLY_PERM_SET_CONTAINER.name) := by
  refine ⟨?_, ?_, ?_, ?_⟩
  · intro wl users a ha
    simp only [defaultWorkloadPermissionAssignments, List.mem_append, List.mem_map]
    exact Or.inl ⟨a, List.mem_append.mp ha, rfl⟩
  · intro wl users a ha
    simp only [defaultWorkloadPermissionAssignments, List.mem_append, List.mem_map]
    exact Or.inr ⟨a, ha, rfl⟩
  · intro wl users asn hasn hname
    simp only [defaultWorkloadPermissionAssignments, List.mem_append, List.mem_map] at hasn
    rcases hasn with ⟨a, _, rfl⟩ | ⟨a, ha, rfl⟩
    · simp [VIEW_ONLY_PERM_SET_CONTAINER, LOW_RISK_ADMIN_PERM_SET_CONTAINER] at hname
    · exact ha
  · intro wl users asn hasn hprot hdev
    simp only [defaultWorkloadPermissionAssignments, List.mem_append, List.mem_map] at hasn
    rcases hasn with ⟨a, _, rfl⟩ | ⟨a, ha, rfl⟩
    · rfl
    · exact absurd ha hdev

/-- C6 counterexample: for the billing-delegate workload with the resolved
account id "123456789012", the serialized descriptor published to the
parameter is not the JSON object claimed (the claim omits the `version`
fields that pydantic's `model_dump_json` serializes). -/
theorem c6_counterexample :
    ∃ w,
      billing_delegate_workload "kms-arn" "deploy-doc" "preview-doc"
          (fun _ => "123456789012") = Except.ok w ∧
      w.workloadParam.value ≠
        "\x7b\"name\":\"billing-delegate\",\"prod_accounts\":[\x7b\"id\":\"123456789012\",\"name\":\"billing-delegate-prod\"\x7d],\"staging_accounts\":[],\"dev_accounts\":[]\x7d" := by
  refine ⟨_, rfl, ?_⟩
  decide

/-- C6 amended: the billing-delegate workload's published descriptor is the
logical workload with `version` "0.0.1", name "billing-delegate", a single
prod entry carrying `version` "0.0.1", the resolved id and the name
"billing-delegate-prod", and empty staging and dev lists; the parameter value
is its pydantic serialization and the parameter path is
`/org-managed/logical-workloads/billing-delegate`. -/
theorem c6_amended_descriptor (kms deploy_json preview_json resolved : String) :
    ∃ w,
      billing_delegate_workload kms deploy_json preview_json (fun _ => resolved) =
        Except.ok w ∧
      w.descriptor =
        { version := "0.0.1"
        , name := "billing-delegate"
        , prod_accounts := [{ version := "0.0.1", id := resolved, name := "billing-delegate-prod" }]
        , staging_accounts := []
        , dev_accounts := [] } ∧
      w.workloadParam.value = w.descriptor.modelDumpJson ∧
      w.workloadParam.paramName = "/org-managed/logical-workloads/billing-delegate" :=
  ⟨_, rfl, rfl, rfl, rfl⟩

/-- The accounts created for one tier are named `f"{workload_name}-{suffix}"`
for the declared suffixes, in order. -/
theorem createTierAccounts_ok_names (workload_name : String) (suffixes : Option (List String))
    (ou : Option String) (l : List AwsAccount)
    (h : createTierAccounts workload_name suffixes ou = Except.ok l) :
    l.map AwsAccount.accountName = (suffixes.getD []).map fun sfx => workload_name ++ "-" ++ sfx := by
  cases suffixes with
  | none =>
    simp only [createTierAccounts] at h
    injection h with h
    subst h
    rfl
  | some sfxs =>
    simp only [createTierAccounts] at h
    by_cases hlen : sfxs.length = 1
    · rw [if_pos hlen] at h
      cases ou with
      | none => cases h
      | some ouName =>
        injection h with h
        subst h
        rw [List.map_map]
        rfl
    · rw [if_neg hlen] at h
      cases h

/-- A tier declared with `None` suffixes creates no accounts. -/
theorem createTierAccounts_none (workload_name : String) (ou : Option String)
    (l : List AwsAccount) (h : createTierAccounts workload_name none ou = Except.ok l) :
    l = [] := by
  simp only [createTierAccounts] at h
  injection h with h
  exact h.symm

/-- Successful workload creation determines every component from the three
tier account lists. -/
theorem awsWorkloadNew_ok_elim (workload_name : String)
    (prod_ou staging_ou dev_ou : Option String)
    (prod_sfx staging_sfx dev_sfx : Option (List String))
    (kms deploy_json preview_json : String) (resolve : String → String) (w : AwsWorkload)
    (h : awsWorkloadNew workload_name prod_ou staging_ou dev_ou prod_sfx staging_sfx dev_sfx
        kms deploy_json preview_json resolve = Except.ok w) :
    ∃ prodAccounts stagingAccounts devAccounts,
      createTierAccounts workload_name prod_sfx prod_ou = Except.ok prodAccounts ∧
      createTierAccounts workload_name staging_sfx staging_ou = Except.ok stagingAccounts ∧
      createTierAccounts workload_name dev_sfx dev_ou = Except.ok devAccounts ∧
      w.prodAccounts = prodAccounts ∧
      w.stagingAccounts = stagingAccounts ∧
      w.devAccounts = devAccounts ∧
      w.descriptor =
        build_workload workload_name
          (prodAccounts.map fun a => (resolve a.accountName, a.accountName))
          (stagingAccounts.map fun a => (resolve a.accountName, a.accountName))
          (devAccounts.map fun a => (resolve a.accountName, a.accountName)) ∧
      w.workloadParam.dependsOn =
        (prodAccounts ++ stagingAccounts ++ devAccounts).map fun a => Ref.wait a.accountName := by
  unfold awsWorkloadNew at h
  cases hp : createTierAccounts workload_name prod_sfx prod_ou with
  | error e => rw [hp] at h; cases h
  | ok prodAccounts =>
  rw [hp] at h
  cases hs : createTierAccounts workload_name staging_sfx staging_ou with
  | error e => rw [hs] at h; cases h
  | ok stagingAccounts =>
  rw [hs] at h
  cases hd : createTierAccounts workload_name dev_sfx dev_ou with
  | error e => rw [hd] at h; cases h
  | ok devAccounts =>
  rw [hd] at h
  simp only at h
  injection h with h
  subst h
  exact ⟨prodAccounts, stagingAccounts, devAccounts, rfl, rfl, rfl, rfl, rfl, rfl, rfl, rfl⟩

/-- C1: the SSM parameter publishing the serialized workload descriptor
declares a dependency on the `wait_after_account_create` resource of every
account of the workload (prod, staging and dev). -/
theorem c1_publish_depends_on_all_waits (workload_name : String)
    (prod_ou staging_ou dev_ou : Option String)
    (prod_sfx staging_sfx dev_sfx : Option (List String))
    (kms deploy_json preview_json : String) (resolve : String → String) (w : AwsWorkload)
    (h : awsWorkloadNew workload_name prod_ou staging_ou dev_ou prod_sfx staging_sfx dev_sfx
        kms deploy_json preview_json resolve = Except.ok w) :
    ∀ a ∈ w.allAccounts, Ref.wait a.accountName ∈ w.workloadParam.dependsOn := by
  obtain ⟨pA, sA, dA, _, _, _, hwp, hws, hwd, _, hdep⟩ :=
    awsWorkloadNew_ok_elim workload_name prod_ou staging_ou dev_ou prod_sfx staging_sfx dev_sfx
      kms deploy_json preview_json resolve w h
  intro a ha
  rw [hdep]
  apply List.mem_map_of_mem
  simpa [AwsWorkload.allAccounts, hwp, hws, hwd] using ha

/-- C1 witness: in the concrete billing-delegate workload, the parameter
depends on the prod account's wait resource. -/
theorem c1_witness :
    Ref.wait "billing-delegate-prod" ∈ exampleBillingWorkload.workloadParam.dependsOn := by
  have h : awsWorkloadNew "billing-delegate" (some "CentralInfraProd") none none
      (some ["prod"]) none none "kms-arn" "deploy-doc" "preview-doc" exampleResolve =
      Except.ok exampleBillingWorkload := rfl
  have hmem : awsAccountNew "billing-delegate-prod" "CentralInfraProd" none
      ∈ exampleBillingWorkload.allAccounts := by decide
  exact c1_publish_depends_on_all_waits "billing-delegate" (some "CentralInfraProd") none none
    (some ["prod"]) none none "kms-arn" "deploy-doc" "preview-doc" exampleResolve
    exampleBillingWorkload h _ hmem

/-- C2: the descriptor of a successfully created workload carries, per tier,
exactly one entry per declared suffix, named `f"{workload_name}-{suffix}"`,
so the total number of entries equals the number of declared accounts. -/
theorem c2_descriptor_matches_declared_accounts (workload_name : String)
    (prod_ou staging_ou dev_ou : Option String)
    (prod_sfx staging_sfx dev_sfx : Option (List String))
    (kms deploy_json preview_json : String) (resolve : String → String) (w : AwsWorkload)
    (h : awsWorkloadNew workload_name prod_ou staging_ou dev_ou prod_sfx staging_sfx dev_sfx
        kms deploy_json preview_json resolve = Except.ok w) :
    w.descriptor.prod_accounts.map AwsAccountInfo.name =
        ((prod_sfx.getD []).map fun sfx => workload_name ++ "-" ++ sfx) ∧
    w.descriptor.staging_accounts.map AwsAccountInfo.name =
        ((staging_sfx.getD []).map fun sfx => workload_name ++ "-" ++ sfx) ∧
    w.descriptor.dev_accounts.map AwsAccountInfo.name =
        ((dev_sfx.getD []).map fun sfx => workload_name ++ "-" ++ sfx) ∧
    w.descriptor.prod_accounts.length + w.descriptor.staging_accounts.length +
        w.descriptor.dev_accounts.length =
      (prod_sfx.getD []).length + (staging_sfx.getD []).length + (dev_sfx.getD []).length := by
  obtain ⟨pA, sA, dA, hp, hs, hd, _, _, _, hdesc, _⟩ :=
    awsWorkloadNew_ok_elim workload_name prod_ou staging_ou dev_ou prod_sfx staging_sfx dev_sfx
      kms deploy_json preview_json resolve w h
  have hpn := createTierAccounts_ok_names workload_name prod_sfx prod_ou pA hp
  have hsn := createTierAccounts_ok_names workload_name staging_sfx staging_ou sA hs
  have hdn := createTierAccounts_ok_names workload_name dev_sfx dev_ou dA hd
  rw [hdesc]
  refine ⟨?_, ?_, ?_, ?_⟩
  · rw [← hpn]
    simp [build_workload, List.map_map, Function.comp]
  · rw [← hsn]
    simp [build_workload, List.map_map, Function.comp]
  · rw [← hdn]
    simp [build_workload, List.map_map, Function.comp]
  · have h1 := congrArg List.length hpn
    have h2 := congrArg List.length hsn
    have h3 := congrArg List.length hdn
    simp only [List.length_map] at h1 h2 h3
    simp [build_workload, h1, h2, h3]

/-- C2 witness: the concrete billing-delegate workload's descriptor holds
exactly the declared account names. -/
theorem c2_witness :
    exampleBillingWorkload.descriptor.prod_accounts.map AwsAccountInfo.name =
        ["billing-delegate-prod"] ∧
      exampleBillingWorkload.descriptor.prod_accounts.length +
          exampleBillingWorkload.descriptor.staging_accounts.length +
          exampleBillingWorkload.descriptor.dev_accounts.length = 1 := by
  have h : awsWorkloadNew "billing-delegate" (some "CentralInfraProd") none none
      (some ["prod"]) none none "kms-arn" "deploy-doc" "preview-doc" exampleResolve =
      Except.ok exampleBillingWorkload := rfl
  have := c2_descriptor_matches_declared_accounts "billing-delegate" (some "CentralInfraProd")
    none none (some ["prod"]) none none "kms-arn" "deploy-doc" "preview-doc" exampleResolve
    exampleBillingWorkload h
  exact ⟨this.1, this.2.2.2⟩

/-- C7: a tier declared with no suffixes (`None`) contributes zero accounts
and an empty per-tier list in the published descriptor. -/
theorem c7_empty_tier_empty_descriptor (workload_name : String)
    (prod_ou staging_ou dev_ou : Option String)
    (prod_sfx staging_sfx dev_sfx : Option (List String))
    (kms deploy_json preview_json : String) (resolve : String → String) (w : AwsWorkload)
    (h : awsWorkloadNew workload_name prod_ou staging_ou dev_ou prod_sfx staging_sfx dev_sfx
        kms deploy_json preview_json resolve = Except.ok w) :
    (prod_sfx = none → w.prodAccounts = [] ∧ w.descriptor.prod_accounts = []) ∧
    (staging_sfx = none → w.stagingAccounts = [] ∧ w.descriptor.staging_accounts = []) ∧
    (dev_sfx = none → w.devAccounts = [] ∧ w.descriptor.dev_accounts = []) := by
  obtain ⟨pA, sA, dA, hp, hs, hd, hwp, hws, hwd, hdesc, _⟩ :=
    awsWorkloadNew_ok_elim workload_name prod_ou staging_ou dev_ou prod_sfx staging_sfx dev_sfx
      kms deploy_json preview_json resolve w h
  refine ⟨?_, ?_, ?_⟩
  · rintro rfl
    have hnil := createTierAccounts_none workload_name prod_ou pA hp
    subst hnil
    exact ⟨hwp, by rw [hdesc]; rfl⟩
  · rintro rfl
    have hnil := createTierAccounts_none workload_name staging_ou sA hs
    subst hnil
    exact ⟨hws, by rw [hdesc]; rfl⟩
  · rintro rfl
    have hnil := createTierAccounts_none workload_name dev_ou dA hd
    subst hnil
    exact ⟨hwd, by rw [hdesc]; rfl⟩

/-- C7 witness: the concrete billing-delegate workload declares no dev tier
and gets no dev accounts and an empty dev descriptor list. -/
theorem c7_witness :
    exampleBillingWorkload.devAccounts = [] ∧
      exampleBillingWorkload.descriptor.dev_accounts = [] := by
  have h : awsWorkloadNew "billing-delegate" (some "CentralInfraProd") none none
      (some ["prod"]) none none "kms-arn" "deploy-doc" "preview-doc" exampleResolve =
      Except.ok exampleBillingWorkload := rfl
  exact (c7_empty_tier_empty_descriptor "billing-delegate" (some "CentralInfraProd") none none
    (some ["prod"]) none none "kms-arn" "deploy-doc" "preview-doc" exampleResolve
    exampleBillingWorkload h).2.2 rfl

/-- String boolean equality is symmetric. -/
theorem string_beq_comm (s t : String) : (s == t) = (t == s) := by
  by_cases h : s = t
  · subst h; rfl
  · have h' : ¬ t = s := fun he => h he.symm
    simp [h, h']

/-- A lookup misses exactly when no stored entry carries the username. -/
theorem findUserInfo_eq_none_iff (seen : List UserInfo) (n : String) :
    findUserInfo seen n = none ↔ ∀ v ∈ seen, v.username ≠ n := by
  simp [findUserInfo, List.find?_eq_none]

/-- A successful lookup returns a stored entry with the looked-up username. -/
theorem findUserInfo_eq_some_facts (seen : List UserInfo) (n : String) (v : UserInfo)
    (h : findUserInfo seen n = some v) : v ∈ seen ∧ v.username = n := by
  refine ⟨List.mem_of_find?_eq_some h, ?_⟩
  have := List.find?_some h
  simpa using this

/-- Consistency restricts along membership inclusion. -/
theorem usersConsistent_mono (l1 l2 : List UserInfo) (hsub : ∀ x ∈ l1, x ∈ l2)
    (h : usersConsistent l2) : usersConsistent l1 :=
  fun u hu v hv he => h u (hsub u hu) v (hsub v hv) he

/-- Lookup in the association extended by one entry. -/
theorem findUserInfo_append_singleton (seen : List UserInfo) (u : UserInfo) (n : String) :
    (findUserInfo (seen ++ [u]) n).isNone =
      ((findUserInfo seen n).isNone && !(u.username == n)) := by
  unfold findUserInfo
  rw [List.find?_append]
  cases h : List.find? (fun x => x.username == n) seen with
  | some v => simp [Option.or]
  | none =>
    cases hb : u.username == n <;> simp [Option.or, List.find?, hb]

/-- When the traversed prefix and the remaining input are jointly consistent,
the loop succeeds and returns the stored prefix followed by the first
occurrences of the not-yet-seen usernames of the remainder. -/
theorem uniqueUserinfoLoop_ok_of_consistent :
    ∀ (rest seen : List UserInfo), usersConsistent (seen ++ rest) →
      uniqueUserinfoLoop seen rest =
        Except.ok (seen ++ firstOccurrences
          (rest.filter fun x => (findUserInfo seen x.username).isNone)) := by
  intro rest
  induction rest with
  | nil =>
    intro seen _
    simp [uniqueUserinfoLoop, firstOccurrences]
  | cons u rest ih =>
    intro seen hcons
    cases hf : findUserInfo seen u.username with
    | none =>
      have hcons' : usersConsistent ((seen ++ [u]) ++ rest) := by
        apply usersConsistent_mono _ _ _ hcons
        intro x hx
        simp only [List.mem_append, List.mem_cons, List.mem_singleton] at hx ⊢
        tauto
      have hstep : uniqueUserinfoLoop seen (u :: rest) = uniqueUserinfoLoop (seen ++ [u]) rest := by
        rw [uniqueUserinfoLoop, hf]
      rw [hstep, ih (seen ++ [u]) hcons']
      congr 1
      have hpassu : ((findUserInfo seen u.username).isNone) = true := by rw [hf]; rfl
      rw [List.filter_cons, if_pos hpassu, firstOccurrences, List.append_assoc,
        List.singleton_append]
      congr 2
      rw [List.filter_filter]
      congr 1
      apply List.filter_congr
      intro x _
      simp only [findUserInfo_append_singleton, bne, string_beq_comm u.username x.username]
      exact Bool.and_comm _ _
    | some v =>
      obtain ⟨hvmem, hvn⟩ := findUserInfo_eq_some_facts seen u.username v hf
      have huv : u = v := by
        apply hcons u (by simp) v (by simp [hvmem]) hvn.symm
      have hstep : uniqueUserinfoLoop seen (u :: rest) = uniqueUserinfoLoop seen rest := by
        simp only [uniqueUserinfoLoop, hf]
        rw [if_pos huv]
      have hcons' : usersConsistent (seen ++ rest) := by
        apply usersConsistent_mono _ _ _ hcons
        intro x hx
        simp only [List.mem_append, List.mem_cons] at hx ⊢
        tauto
      rw [hstep, ih seen hcons']
      have hfailu : ¬ ((findUserInfo seen u.username).isNone = true) := by rw [hf]; simp
      rw [List.filter_cons, if_neg hfailu]

/-- When the traversed prefix is consistent but the whole input is not, the
loop raises. -/
theorem uniqueUserinfoLoop_error_of_inconsistent :
    ∀ (rest seen : List UserInfo), usersConsistent seen →
      ¬ usersConsistent (seen ++ rest) →
      ∃ e, uniqueUserinfoLoop seen rest = Except.error e := by
  intro rest
  induction rest with
  | nil =>
    intro seen hs hc
    exact absurd (by simpa using hs) hc
  | cons u rest ih =>
    intro seen hs hc
    cases hf : findUserInfo seen u.username with
    | none =>
      have hnone := (findUserInfo_eq_none_iff seen u.username).mp hf
      have hs' : usersConsistent (seen ++ [u]) := by
        intro x hx y hy he
        simp only [List.mem_append, List.mem_singleton] at hx hy
        rcases hx with hx | rfl <;> rcases hy with hy | rfl
        · exact hs x hx y hy he
        · exact absurd he (hnone x hx)
        · exact absurd he.symm (hnone y hy)
        · rfl
      have hc' : ¬ usersConsistent ((seen ++ [u]) ++ rest) := by
        intro h
        apply hc
        apply usersConsistent_mono _ _ _ h
        intro x hx
        simp only [List.mem_append, List.mem_cons, List.mem_singleton] at hx ⊢
        tauto
      obtain ⟨e, he⟩ := ih (seen ++ [u]) hs' hc'
      exact ⟨e, by rw [uniqueUserinfoLoop, hf]; exact he⟩
    | some v =>
      obtain ⟨hvmem, hvn⟩ := findUserInfo_eq_some_facts seen u.username v hf
      by_cases huv : u = v
      · have hc' : ¬ usersConsistent (seen ++ rest) := by
          intro h
          apply hc
          apply usersConsistent_mono _ _ _ h
          intro x hx
          simp only [List.mem_append, List.mem_cons] at hx ⊢
          rcases hx with hx | rfl | hx
          · tauto
          · exact Or.inl (huv ▸ hvmem)
          · tauto
        obtain ⟨e, he⟩ := ih seen hs hc'
        refine ⟨e, ?_⟩
        simp only [uniqueUserinfoLoop, hf]
        rw [if_pos huv]
        exact he
      · refine ⟨"ValueError: Duplicate user info", ?_⟩
        simp only [uniqueUserinfoLoop, hf]
        rw [if_neg huv]

/-- The first-occurrence list is a subsequence of the input (order of first
appearance is preserved). -/
theorem firstOccurrences_sublist (l : List UserInfo) : (firstOccurrences l).Sublist l := by
  cases l with
  | nil => simp [firstOccurrences]
  | cons u rest =>
    rw [firstOccurrences]
    exact List.Sublist.cons₂ u
      ((firstOccurrences_sublist (rest.filter fun v => v.username != u.username)).trans
        (List.filter_sublist rest))
termination_by l.length
decreasing_by
  simp only [List.length_cons]
  exact Nat.lt_succ_of_le (List.length_filter_le _ _)

/-- The first-occurrence list carries pairwise distinct usernames. -/
theorem firstOccurrences_username_nodup (l : List UserInfo) :
    ((firstOccurrences l).map UserInfo.username).Nodup := by
  cases l with
  | nil => simp [firstOccurrences]
  | cons u rest =>
    rw [firstOccurrences]
    simp only [List.map_cons, List.nodup_cons]
    constructor
    · intro hmem
      rw [List.mem_map] at hmem
      obtain ⟨x, hx, hxe⟩ := hmem
      have hx' : x ∈ rest.filter fun v => v.username != u.username :=
        (firstOccurrences_sublist _).subset hx
      have hcond := (List.mem_filter.mp hx').2
      rw [hxe] at hcond
      simp at hcond
    · exact firstOccurrences_username_nodup (rest.filter fun v => v.username != u.username)
termination_by l.length
decreasing_by
  simp only [List.length_cons]
  exact Nat.lt_succ_of_le (List.length_filter_le _ _)

/-- The first-occurrence list covers exactly the usernames of the input. -/
theorem mem_map_username_firstOccurrences (l : List UserInfo) (n : String) :
    n ∈ (firstOccurrences l).map UserInfo.username ↔ n ∈ l.map UserInfo.username := by
  cases l with
  | nil => simp [firstOccurrences]
  | cons u rest =>
    rw [firstOccurrences]
    simp only [List.map_cons, List.mem_cons]
    constructor
    · rintro (h | h)
      · exact Or.inl h
      · right
        rw [mem_map_username_firstOccurrences] at h
        rw [List.mem_map] at h ⊢
        obtain ⟨x, hx, he⟩ := h
        exact ⟨x, (List.filter_sublist rest).subset hx, he⟩
    · rintro (h | h)
      · exact Or.inl h
      · by_cases hn : n = u.username
        · exact Or.inl hn
        · right
          rw [mem_map_username_firstOccurrences]
          rw [List.mem_map] at h ⊢
          obtain ⟨x, hx, he⟩ := h
          refine ⟨x, List.mem_filter.mpr ⟨hx, ?_⟩, he⟩
          rw [he]
          simp [bne, hn]
termination_by l.length
decreasing_by
  all_goals
    simp only [List.length_cons]
    exact Nat.lt_succ_of_le (List.length_filter_le _ _)

/-- The first-occurrence list has one entry per distinct username. -/
theorem firstOccurrences_length (l : List UserInfo) :
    (firstOccurrences l).length = (l.map UserInfo.username).dedup.length := by
  have h1 : ((firstOccurrences l).map UserInfo.username).Nodup :=
    firstOccurrences_username_nodup l
  have h2 : ((l.map UserInfo.username).dedup).Nodup := List.nodup_dedup _
  have hperm : ((firstOccurrences l).map UserInfo.username).Perm
      ((l.map UserInfo.username).dedup) := by
    rw [List.perm_ext_iff_of_nodup h1 h2]
    intro a
    rw [List.mem_dedup, mem_map_username_firstOccurrences]
  have hlen := hperm.length_eq
  simpa using hlen

/-- Specialization of the loop lemmas to `_create_unique_userinfo_list`. -/
theorem create_unique_ok_of_consistent (users : List UserInfo)
    (h : usersConsistent users) :
    _create_unique_userinfo_list users = Except.ok (firstOccurrences users) := by
  unfold _create_unique_userinfo_list
  rw [uniqueUserinfoLoop_ok_of_consistent users [] (by simpa using h)]
  simp [findUserInfo, List.filter_true]

/-- `_create_unique_userinfo_list` raises on inconsistent input. -/
theorem create_unique_error_of_inconsistent (users : List UserInfo)
    (h : ¬ usersConsistent users) :
    ∃ e, _create_unique_userinfo_list users = Except.error e := by
  unfold _create_unique_userinfo_list
  exact uniqueUserinfoLoop_error_of_inconsistent users []
    (by intro u hu; simp at hu) (by simpa using h)

/-- A successful run returns exactly the first occurrences, and the input was
consistent. -/
theorem create_unique_ok_eq (users l : List UserInfo)
    (h : _create_unique_userinfo_list users = Except.ok l) :
    l = firstOccurrences users ∧ usersConsistent users := by
  by_cases hc : usersConsistent users
  · have := create_unique_ok_of_consistent users hc
    rw [this] at h
    injection h with h
    exact ⟨h.symm, hc⟩
  · obtain ⟨e, he⟩ := create_unique_error_of_inconsistent users hc
    rw [he] at h
    cases h

/-- C10: `_create_unique_userinfo_list` raises `ValueError` exactly when the
input holds two entries with the same username and unequal `UserInfo` values;
otherwise it returns the first occurrence of each username, preserving the
order of first appearance (a subsequence of the input with pairwise distinct
usernames, one entry per distinct username). -/
theorem c10_unique_userinfo_spec :
    (∀ users : List UserInfo,
        (∃ e, _create_unique_userinfo_list users = Except.error e) ↔
          ¬ usersConsistent users) ∧
    (∀ users : List UserInfo, usersConsistent users →
        _create_unique_userinfo_list users = Except.ok (firstOccurrences users)) ∧
    (∀ users l : List UserInfo, _create_unique_userinfo_list users = Except.ok l →
        l = firstOccurrences users ∧ l.Sublist users ∧
        (l.map UserInfo.username).Nodup ∧
        l.length = (users.map UserInfo.username).dedup.length) := by
  refine ⟨?_, ?_, ?_⟩
  · intro users
    constructor
    · rintro ⟨e, he⟩ hc
      rw [create_unique_ok_of_consistent users hc] at he
      cases he
    · exact create_unique_error_of_inconsistent users
  · exact create_unique_ok_of_consistent
  · intro users l h
    obtain ⟨rfl, _⟩ := create_unique_ok_eq users l h
    exact ⟨rfl, firstOccurrences_sublist users, firstOccurrences_username_nodup users,
      firstOccurrences_length users⟩

/-- C3: the duplicated user list `["a.b", "a.b", "c.d"]` yields exactly two
pairwise-distinct account-assignment bindings, and in general a successful
`AwsSsoPermissionSetAccountAssignments` never creates duplicate bindings. -/
theorem c3_assignment_dedup :
    (∃ l, awsSsoPermissionSetAccountAssignments
        { id := "111111111111", name := "workload-prod" } "ViewOnlyAccess"
        (some [{ username := "a.b" }, { username := "a.b" }, { username := "c.d" }])
        (fun _ => "sso-user-id") = Except.ok l ∧ l.length = 2 ∧ l.Nodup) ∧
    (∀ (account_info : AwsAccountInfo) (permission_set_name : String)
        (users : Option (List UserInfo)) (lookup_user_id : String → String)
        (l : List AccountAssignment),
        awsSsoPermissionSetAccountAssignments account_info permission_set_name users
            lookup_user_id = Except.ok l →
        l.Nodup) := by
  constructor
  · exact ⟨_, rfl, rfl, by decide⟩
  · intro account_info permission_set_name users lookup_user_id l h
    unfold awsSsoPermissionSetAccountAssignments at h
    simp only at h
    cases hu : _create_unique_userinfo_list (users.getD []) with
    | error e => rw [hu] at h; cases h
    | ok user_infos =>
      rw [hu] at h
      simp only at h
      injection h with h
      subst h
      obtain ⟨rfl, _⟩ := create_unique_ok_eq (users.getD []) user_infos hu
      apply List.Nodup.of_map (fun asn : AccountAssignment => asn.username)
      rw [List.map_map]
      exact firstOccurrences_username_nodup (users.getD [])

end AwsOrg
